import Mathlib

/-!
# Verification of the brownpaw station-data ingestion pipeline

Shallow embedding, in Lean 4, of the core of the `brownpaw` repository:
the station data ingestion and temporal-aggregation pipeline
(daily aggregation of hourly hydrometric readings, merge-based yearly
persistence, the realtime current-conditions refresher, batched store
writes, retrying fetches and upstream response parsing).

Modelling conventions:

* Python `float` values are modelled as `ℚ` (exact rational arithmetic);
  `round(x, n)` is Python's round-half-to-even, modelled exactly on `ℚ`.
* A Python `dict` is modelled as an association list `List (String × β)`
  looked up with `alistLookup`; an absent key / absent optional field is
  `Option.none`.
* The ISO-8601 timestamp handling
  `datetime.fromisoformat(s.replace('Z', '+00:00')).strftime('%Y-%m-%d')`
  keeps the timestamp's own calendar date (no timezone conversion is
  performed), i.e. for well-formed ISO timestamps it returns the first ten
  characters of the string; it is modelled as `String.take 10`.
* Exceptions are modelled with `Except`; a `try/except` that catches a
  fixed tuple of exception classes is modelled by testing membership of
  the raised class in that tuple.
-/

namespace Brownpaw

/-- First-match lookup in an association list: the model of a Python
`dict` access `m.get(k)` (Python dicts have unique keys; the model lists
produced below have `Nodup` keys, which is proved where it matters). -/
def alistLookup {β : Type} (k : String) : List (String × β) → Option β
  | [] => none
  | (k', v) :: rest => if k' = k then some v else alistLookup k rest

/-- An hourly reading as handled by the aggregators: the Python dict
`{'datetime': ..., 'discharge': ..., 'level': ...}` where either
measurement may be `None`/absent. -/
structure RtReading where
  datetime : String
  discharge : Option ℚ
  level : Option ℚ
deriving DecidableEq, Repr, Inhabited

/-- A daily aggregate: the Python dict built by the aggregators, holding
`mean_discharge` and/or `mean_level`, each key present only when that
parameter had at least one sample that day. -/
structure DailyAgg where
  mean_discharge : Option ℚ
  mean_level : Option ℚ
deriving DecidableEq, Repr

/-- Python `round` to an integer: round half to even (banker's rounding),
modelled exactly on `ℚ`. -/
def roundHalfEven (q : ℚ) : ℤ :=
  if q - ⌊q⌋ < 1/2 then ⌊q⌋
  else if q - ⌊q⌋ > 1/2 then ⌊q⌋ + 1
  else if Even ⌊q⌋ then ⌊q⌋ else ⌊q⌋ + 1

/-- Python `round(x, 2)`. -/
def round2 (q : ℚ) : ℚ := (roundHalfEven (q * 100) : ℚ) / 100

/-- Python `round(x, 3)`. -/
def round3 (q : ℚ) : ℚ := (roundHalfEven (q * 1000) : ℚ) / 1000

/-- Calendar date (`"YYYY-MM-DD"`) of a reading's ISO-8601 timestamp:
the model of
`datetime.fromisoformat(r['datetime'].replace('Z', '+00:00')).strftime('%Y-%m-%d')`
from `daily_station_updater.calculate_daily_averages_from_realtime` and
`daily_updater.calculate_daily_average_for_yesterday`. -/
def dateOf (r : RtReading) : String := r.datetime.take 10

/-- The non-absent discharge samples of date `d` in `rs`, in input order:
`[r['discharge'] for r in day_readings if r.get('discharge') is not None]`. -/
def dayDischarges (rs : List RtReading) (d : String) : List ℚ :=
  (rs.filter fun r => dateOf r = d).filterMap (·.discharge)

/-- The non-absent level samples of date `d` in `rs`, in input order. -/
def dayLevels (rs : List RtReading) (d : String) : List ℚ :=
  (rs.filter fun r => dateOf r = d).filterMap (·.level)

/-- The daily aggregate for one date bucket, per the loop body of
`calculate_daily_averages_from_realtime` (`if discharges:` is Python's
non-emptiness test): mean of the non-absent discharges rounded to 2
decimals, mean of the non-absent levels rounded to 3 decimals, each key
present only when samples exist; `none` when the date has no sample of
either parameter (the date is then omitted entirely). -/
def aggFor (rs : List RtReading) (d : String) : Option DailyAgg :=
  if dayDischarges rs d = [] ∧ dayLevels rs d = [] then none
  else some
    { mean_discharge :=
        if dayDischarges rs d = [] then none
        else some (round2 ((dayDischarges rs d).sum / ((dayDischarges rs d).length : ℚ)))
      mean_level :=
        if dayLevels rs d = [] then none
        else some (round3 ((dayLevels rs d).sum / ((dayLevels rs d).length : ℚ))) }

/-- Insert a string into a `≤`-sorted list of strings. -/
def insertSorted (s : String) : List String → List String
  | [] => [s]
  | t :: ts => if s ≤ t then s :: t :: ts else t :: insertSorted s ts

/-- Insertion sort on strings: the model of Python's `sorted(...)` over
the (distinct) date keys. -/
def sortStrings : List String → List String
  | [] => []
  | s :: ss => insertSorted s (sortStrings ss)

/-- The distinct dates appearing in `rs`, sorted ascending: the keys of
`readings_by_date` as iterated by `for date_str in sorted(readings_by_date.keys())`. -/
def datesOf (rs : List RtReading) : List String :=
  sortStrings (rs.map dateOf).dedup

/-- Model of `daily_station_updater.calculate_daily_averages_from_realtime`:
bucket the hourly readings by the calendar date of their timestamp and,
for each date in ascending order, emit the per-date aggregate (dates with
no valid sample of either parameter are omitted). -/
def calculate_daily_averages_from_realtime (rs : List RtReading) :
    List (String × DailyAgg) :=
  (datesOf rs).filterMap fun d => (aggFor rs d).map fun a => (d, a)

/-- Model of `daily_updater.calculate_daily_average_for_yesterday`: restrict the
hourly readings to those dated `yesterday` and compute that single date's
aggregate; an empty dict results when yesterday has no valid sample. -/
def calculate_daily_average_for_yesterday (rs : List RtReading)
    (yesterday : String) : List (String × DailyAgg) :=
  if (rs.filter fun r => dateOf r = yesterday) = [] then []
  else if dayDischarges rs yesterday = [] ∧ dayLevels rs yesterday = [] then []
  else [(yesterday,
    { mean_discharge :=
        if dayDischarges rs yesterday = [] then none
        else some (round2 ((dayDischarges rs yesterday).sum /
          ((dayDischarges rs yesterday).length : ℚ)))
      mean_level :=
        if dayLevels rs yesterday = [] then none
        else some (round3 ((dayLevels rs yesterday).sum /
          ((dayLevels rs yesterday).length : ℚ))) })]

theorem mem_insertSorted (a s : String) (l : List String) :
    a ∈ insertSorted s l ↔ a = s ∨ a ∈ l := by
  induction l with
  | nil => simp [insertSorted]
  | cons t ts ih =>
      by_cases h : s ≤ t
      · simp [insertSorted, h]
      · simp only [insertSorted, if_neg h, List.mem_cons, ih]
        tauto

theorem nodup_insertSorted (s : String) (l : List String)
    (hs : s ∉ l) (hl : l.Nodup) : (insertSorted s l).Nodup := by
  induction l with
  | nil => simp [insertSorted]
  | cons t ts ih =>
      by_cases h : s ≤ t
      · rw [insertSorted, if_pos h]
        exact List.nodup_cons.mpr ⟨hs, hl⟩
      · rw [insertSorted, if_neg h]
        rcases List.nodup_cons.mp hl with ⟨ht, hts⟩
        refine List.nodup_cons.mpr ⟨?_, ih (fun hm => hs (by simp [hm])) hts⟩
        intro hm
        rcases (mem_insertSorted t s ts).mp hm with h1 | h1
        · exact hs (by simp [h1.symm])
        · exact ht h1

theorem mem_sortStrings (a : String) (l : List String) :
    a ∈ sortStrings l ↔ a ∈ l := by
  induction l with
  | nil => simp [sortStrings]
  | cons s ss ih => simp [sortStrings, mem_insertSorted, ih]

theorem nodup_sortStrings (l : List String) (hl : l.Nodup) :
    (sortStrings l).Nodup := by
  induction l with
  | nil => simp [sortStrings]
  | cons s ss ih =>
      rcases List.nodup_cons.mp hl with ⟨hs, hss⟩
      exact nodup_insertSorted s (sortStrings ss)
        (fun hm => hs ((mem_sortStrings s ss).mp hm)) (ih hss)

theorem mem_datesOf (rs : List RtReading) (d : String) :
    d ∈ datesOf rs ↔ ∃ r ∈ rs, dateOf r = d := by
  simp [datesOf, mem_sortStrings, List.mem_dedup, List.mem_map, eq_comm]

theorem nodup_datesOf (rs : List RtReading) : (datesOf rs).Nodup :=
  nodup_sortStrings _ (List.nodup_dedup _)

theorem alistLookup_filterMap_keys {β : Type} (g : String → Option β)
    (ds : List String) (d : String) (hnd : ds.Nodup) :
    alistLookup d (ds.filterMap fun k => (g k).map fun a => (k, a)) =
      if d ∈ ds then g d else none := by
  induction ds with
  | nil => simp [alistLookup]
  | cons k rest ih =>
      rcases List.nodup_cons.mp hnd with ⟨hk, hrest⟩
      by_cases hkd : k = d
      · subst hkd
        cases hg : g k with
        | none =>
            simp only [List.filterMap_cons, hg, Option.map_none']
            rw [ih hrest]
            simp [hk, hg]
        | some a =>
            simp only [List.filterMap_cons, hg, Option.map_some']
            simp [alistLookup, hg]
      · cases hg : g k with
        | none =>
            simp only [List.filterMap_cons, hg, Option.map_none']
            rw [ih hrest]
            by_cases hd : d ∈ rest <;>
              simp [hd, List.mem_cons, Ne.symm hkd, hkd]
        | some a =>
            simp only [List.filterMap_cons, hg, Option.map_some']
            rw [alistLookup, if_neg hkd, ih hrest]
            by_cases hd : d ∈ rest <;>
              simp [hd, List.mem_cons, Ne.symm hkd, hkd]

theorem keys_nodup_filterMap {β : Type} (g : String → Option β)
    (ds : List String) (hnd : ds.Nodup) :
    ((ds.filterMap fun k => (g k).map fun a => (k, a)).map Prod.fst).Nodup := by
  induction ds with
  | nil => simp
  | cons k rest ih =>
      rcases List.nodup_cons.mp hnd with ⟨hk, hrest⟩
      cases hg : g k with
      | none => simpa [List.filterMap_cons, hg] using ih hrest
      | some a =>
          simp only [List.filterMap_cons, hg, Option.map_some', List.map_cons,
            List.nodup_cons]
          refine ⟨fun hm => ?_, ih hrest⟩
          rcases List.mem_map.mp hm with ⟨p, hp, hfst⟩
          rcases List.mem_filterMap.mp hp with ⟨k', hk', hgk'⟩
          cases hgk'' : g k' with
          | none => rw [hgk''] at hgk'; simp at hgk'
          | some b =>
              rw [hgk''] at hgk'
              simp only [Option.map_some', Option.some.injEq] at hgk'
              subst hgk'
              have hkk : k' = k := hfst
              subst hkk
              exact hk hk'

theorem lookup_calculate_daily_averages (rs : List RtReading) (d : String) :
    alistLookup d (calculate_daily_averages_from_realtime rs) =
      if d ∈ datesOf rs then aggFor rs d else none :=
  alistLookup_filterMap_keys (aggFor rs) (datesOf rs) d (nodup_datesOf rs)

theorem dayDischarges_ne_nil (rs : List RtReading) (d : String) :
    dayDischarges rs d ≠ [] ↔
      ∃ r ∈ rs, dateOf r = d ∧ r.discharge.isSome := by
  rw [← List.length_pos_iff_ne_nil, List.length_pos_iff_exists_mem]
  constructor
  · rintro ⟨q, hq⟩
    rcases List.mem_filterMap.mp hq with ⟨r, hr, hrd⟩
    rcases List.mem_filter.mp hr with ⟨hrs, hdate⟩
    exact ⟨r, hrs, by simpa using hdate, by simp [hrd]⟩
  · rintro ⟨r, hrs, hdate, hsome⟩
    rcases Option.isSome_iff_exists.mp hsome with ⟨q, hq⟩
    exact ⟨q, List.mem_filterMap.mpr
      ⟨r, List.mem_filter.mpr ⟨hrs, by simpa using hdate⟩, hq⟩⟩

theorem dayLevels_ne_nil (rs : List RtReading) (d : String) :
    dayLevels rs d ≠ [] ↔
      ∃ r ∈ rs, dateOf r = d ∧ r.level.isSome := by
  rw [← List.length_pos_iff_ne_nil, List.length_pos_iff_exists_mem]
  constructor
  · rintro ⟨q, hq⟩
    rcases List.mem_filterMap.mp hq with ⟨r, hr, hrd⟩
    rcases List.mem_filter.mp hr with ⟨hrs, hdate⟩
    exact ⟨r, hrs, by simpa using hdate, by simp [hrd]⟩
  · rintro ⟨r, hrs, hdate, hsome⟩
    rcases Option.isSome_iff_exists.mp hsome with ⟨q, hq⟩
    exact ⟨q, List.mem_filterMap.mpr
      ⟨r, List.mem_filter.mpr ⟨hrs, by simpa using hdate⟩, hq⟩⟩

/-- Claim C1: The daily aggregator
`calculate_daily_averages_from_realtime` returns a map whose keys are
free of duplicates, with an entry for a calendar date exactly when that
date has at least one non-absent discharge or level sample (and no entry
otherwise); the entry's `mean_discharge` is the arithmetic mean of the
date's non-absent discharges rounded to 2 decimals (absent when there
are none) and its `mean_level` is the arithmetic mean of the date's
non-absent levels rounded to 3 decimals (absent when there are none).
The specialised variant `calculate_daily_average_for_yesterday` is
exactly the restriction of this aggregation to the single target date. -/
theorem claim_C1_daily_aggregator (rs : List RtReading) (d : String) :
    ((alistLookup d (calculate_daily_averages_from_realtime rs)).isSome ↔
      ∃ r ∈ rs, dateOf r = d ∧ (r.discharge.isSome ∨ r.level.isSome))
    ∧ (∀ a, alistLookup d (calculate_daily_averages_from_realtime rs) = some a →
        a.mean_discharge = (if dayDischarges rs d = [] then none
          else some (round2 ((dayDischarges rs d).sum / ((dayDischarges rs d).length : ℚ))))
        ∧ a.mean_level = (if dayLevels rs d = [] then none
          else some (round3 ((dayLevels rs d).sum / ((dayLevels rs d).length : ℚ)))))
    ∧ ((calculate_daily_averages_from_realtime rs).map Prod.fst).Nodup
    ∧ calculate_daily_average_for_yesterday rs d =
        (match aggFor rs d with
         | some a => [(d, a)]
         | none => []) := by
  refine ⟨?_, ?_, ?_, ?_⟩
  · rw [lookup_calculate_daily_averages]
    constructor
    · intro hsome
      by_cases hmem : d ∈ datesOf rs
      · rw [if_pos hmem, aggFor] at hsome
        by_cases hde : dayDischarges rs d = [] ∧ dayLevels rs d = []
        · simp [hde] at hsome
        · rcases not_and_or.mp hde with h1 | h1
          · rcases (dayDischarges_ne_nil rs d).mp h1 with ⟨r, hr, hd', hs'⟩
            exact ⟨r, hr, hd', Or.inl hs'⟩
          · rcases (dayLevels_ne_nil rs d).mp h1 with ⟨r, hr, hd', hs'⟩
            exact ⟨r, hr, hd', Or.inr hs'⟩
      · rw [if_neg hmem] at hsome
        simp at hsome
    · rintro ⟨r, hr, hd', hs'⟩
      have hmem : d ∈ datesOf rs := (mem_datesOf rs d).mpr ⟨r, hr, hd'⟩
      rw [if_pos hmem, aggFor]
      rcases hs' with hs' | hs'
      · have hne : dayDischarges rs d ≠ [] :=
          (dayDischarges_ne_nil rs d).mpr ⟨r, hr, hd', hs'⟩
        simp [hne]
      · have hne : dayLevels rs d ≠ [] :=
          (dayLevels_ne_nil rs d).mpr ⟨r, hr, hd', hs'⟩
        simp [hne]
  · intro a ha
    rw [lookup_calculate_daily_averages] at ha
    by_cases hmem : d ∈ datesOf rs
    · rw [if_pos hmem, aggFor] at ha
      by_cases hde : dayDischarges rs d = [] ∧ dayLevels rs d = []
      · simp [hde] at ha
      · rw [if_neg hde] at ha
        rcases Option.some.injEq .. ▸ ha with rfl
        exact ⟨rfl, rfl⟩
    · rw [if_neg hmem] at ha
      simp at ha
  · exact keys_nodup_filterMap (aggFor rs) (datesOf rs) (nodup_datesOf rs)
  · rw [calculate_daily_average_for_yesterday, aggFor]
    by_cases hyr : (rs.filter fun r => dateOf r = d) = []
    · have hds : dayDischarges rs d = [] := by rw [dayDischarges, hyr]; rfl
      have hls : dayLevels rs d = [] := by rw [dayLevels, hyr]; rfl
      simp [hyr, hds, hls]
    · rw [if_neg hyr]
      by_cases hde : dayDischarges rs d = [] ∧ dayLevels rs d = []
      · simp [hde]
      · simp [hde]

/-- Witness for C1: a two-date input with a discharge-only sample and a
date having both parameters; evaluates the aggregator concretely. -/
theorem claim_C1_daily_aggregator_witness :
    (DailyAgg.mk (some (3/2)) none).mean_discharge =
        (if dayDischarges
            [⟨"2024-01-01T05:00:00Z", some 1, none⟩,
             ⟨"2024-01-01T06:00:00Z", some 2, none⟩,
             ⟨"2024-01-02T05:00:00Z", none, some (12/10)⟩] "2024-01-01" = [] then none
          else some (round2 ((dayDischarges
            [⟨"2024-01-01T05:00:00Z", some 1, none⟩,
             ⟨"2024-01-01T06:00:00Z", some 2, none⟩,
             ⟨"2024-01-02T05:00:00Z", none, some (12/10)⟩] "2024-01-01").sum /
            ((dayDischarges
            [⟨"2024-01-01T05:00:00Z", some 1, none⟩,
             ⟨"2024-01-01T06:00:00Z", some 2, none⟩,
             ⟨"2024-01-02T05:00:00Z", none, some (12/10)⟩] "2024-01-01").length : ℚ)))) :=
  ((claim_C1_daily_aggregator
    [⟨"2024-01-01T05:00:00Z", some 1, none⟩,
     ⟨"2024-01-01T06:00:00Z", some 2, none⟩,
     ⟨"2024-01-02T05:00:00Z", none, some (12/10)⟩] "2024-01-01").2.1
    (DailyAgg.mk (some (3/2)) none)
    (by norm_num +decide [calculate_daily_averages_from_realtime, datesOf,
      sortStrings, insertSorted, aggFor, dayDischarges, dayLevels, dateOf,
      alistLookup, round2, roundHalfEven, List.dedup, List.filterMap,
      List.filter])).1

/-! ## Trend classification (`realtime_data_service.get_station_status`)

The fetched window is sorted most-recent-first (`sortby: -DATETIME`), so
`readings[0]` is the newest sample.  The trend block is

    trend = 'stable'
    if len(readings) >= 2:
        recent_levels = [r['level'] for r in readings[:7] if r.get('level')]
        if len(recent_levels) >= 2:
            if recent_levels[0] > recent_levels[-1] + 0.05: trend = 'rising'
            elif recent_levels[0] < recent_levels[-1] - 0.05: trend = 'falling'

identical in `functions/scripts/environment_canada/realtime_data_service.py`
and `scripts/environment_canada/realtime_data_service.py`.  Note
`if r.get('level')` is Python truthiness: it drops a level of `0.0` as
well as an absent one. -/

/-- The per-reading selector of `[r['level'] for r in readings[:7] if r.get('level')]`:
keeps a level only when it is present and nonzero (Python truthiness). -/
def levelSel (r : RtReading) : Option ℚ :=
  match r.level with
  | some l => if l = 0 then none else some l
  | none => none

/-- Model of `recent_levels`: the truthy levels among the 7 most recent readings. -/
def recentLevels (readings : List RtReading) : List ℚ :=
  (readings.take 7).filterMap levelSel

/-- The trend computed by `get_station_status` (threshold `0.05 = 1/20`). -/
def trendOf (readings : List RtReading) : String :=
  if 2 ≤ readings.length then
    if 2 ≤ (recentLevels readings).length then
      if (recentLevels readings).getLastD 0 + 1/20 < (recentLevels readings).headI
        then "rising"
      else if (recentLevels readings).headI < (recentLevels readings).getLastD 0 - 1/20
        then "falling"
      else "stable"
    else "stable"
  else "stable"

theorem recentLevels_length_le (readings : List RtReading) :
    (recentLevels readings).length ≤ readings.length := by
  calc (recentLevels readings).length ≤ (readings.take 7).length :=
        List.length_filterMap_le _ _
    _ ≤ readings.length := by simp [List.length_take]

/-- Claim C6: With at least two selected level samples among the 7 most
recent readings, the trend is `rising` exactly when the newest selected
level exceeds the oldest selected one by more than `0.05`, `falling`
exactly when it is more than `0.05` below it, and `stable` otherwise
(so a delta of exactly `±0.05` gives `stable`); with fewer than two
selected level samples the trend is `stable`.  The window
`[oldest 1.00, newest 1.10]` (stored newest-first) yields `rising`,
`[oldest 1.10, newest 1.00]` yields `falling`, and `[1.00, 1.02]`
yields `stable`. -/
theorem claim_C6_trend_classification (readings : List RtReading) :
    (2 ≤ (recentLevels readings).length →
      ((trendOf readings = "rising" ↔
          (recentLevels readings).getLastD 0 + 1/20 < (recentLevels readings).headI)
        ∧ (trendOf readings = "falling" ↔
          (recentLevels readings).headI < (recentLevels readings).getLastD 0 - 1/20)
        ∧ (trendOf readings = "stable" ↔
          ((recentLevels readings).headI ≤ (recentLevels readings).getLastD 0 + 1/20
            ∧ (recentLevels readings).getLastD 0 - 1/20 ≤ (recentLevels readings).headI))))
    ∧ ((recentLevels readings).length < 2 → trendOf readings = "stable")
    ∧ trendOf [⟨"2024-01-02T00:00:00Z", none, some (110/100)⟩,
               ⟨"2024-01-01T18:00:00Z", none, some 1⟩] = "rising"
    ∧ trendOf [⟨"2024-01-02T00:00:00Z", none, some 1⟩,
               ⟨"2024-01-01T18:00:00Z", none, some (110/100)⟩] = "falling"
    ∧ trendOf [⟨"2024-01-02T00:00:00Z", none, some (102/100)⟩,
               ⟨"2024-01-01T18:00:00Z", none, some 1⟩] = "stable" := by
  refine ⟨?_, ?_, ?_, ?_, ?_⟩
  · intro hlen
    have hr : 2 ≤ readings.length := le_trans hlen (recentLevels_length_le readings)
    rw [trendOf, if_pos hr, if_pos hlen]
    by_cases h1 : (recentLevels readings).getLastD 0 + 1/20 < (recentLevels readings).headI
    · rw [if_pos h1]
      refine ⟨⟨fun _ => h1, fun _ => rfl⟩, ⟨fun h => absurd h (by decide), ?_⟩,
        ⟨fun h => absurd h (by decide), ?_⟩⟩
      · intro h2
        exact absurd (lt_trans h2 (by linarith)) (lt_irrefl _)
      · rintro ⟨h2, _⟩
        exact absurd (lt_of_lt_of_le h1 h2) (lt_irrefl _)
    · rw [if_neg h1]
      by_cases h2 : (recentLevels readings).headI < (recentLevels readings).getLastD 0 - 1/20
      · rw [if_pos h2]
        refine ⟨⟨fun h => absurd h (by decide), fun h => absurd h h1⟩,
          ⟨fun _ => h2, fun _ => rfl⟩,
          ⟨fun h => absurd h (by decide), ?_⟩⟩
        rintro ⟨_, h3⟩
        exact absurd (lt_of_le_of_lt h3 h2) (lt_irrefl _)
      · rw [if_neg h2]
        exact ⟨⟨fun h => absurd h (by decide), fun h => absurd h h1⟩,
          ⟨fun h => absurd h (by decide), fun h => absurd h h2⟩,
          ⟨fun _ => ⟨le_of_not_lt h1, le_of_not_lt h2⟩, fun _ => rfl⟩⟩
  · intro hlen
    rw [trendOf]
    by_cases hr : 2 ≤ readings.length
    · rw [if_pos hr, if_neg (by omega)]
    · rw [if_neg hr]
  · norm_num [trendOf, recentLevels, levelSel, List.filterMap, List.headI,
      List.getLastD]
  · norm_num [trendOf, recentLevels, levelSel, List.filterMap, List.headI,
      List.getLastD]
  · norm_num [trendOf, recentLevels, levelSel, List.filterMap, List.headI,
      List.getLastD]

/-- Witness for C6: the rising example has two selected levels, and the
characterisation applied to it yields `rising`. -/
theorem claim_C6_trend_classification_witness :
    trendOf [⟨"2024-01-02T00:00:00Z", none, some (110/100)⟩,
             ⟨"2024-01-01T18:00:00Z", none, some 1⟩] = "rising" :=
  (((claim_C6_trend_classification
      [⟨"2024-01-02T00:00:00Z", none, some (110/100)⟩,
       ⟨"2024-01-01T18:00:00Z", none, some 1⟩]).1
    (by norm_num [recentLevels, levelSel, List.filterMap])).1).mpr
    (by norm_num [recentLevels, levelSel, List.filterMap, List.headI,
      List.getLastD])

/-- The C10 rewriting: replace a present-but-zero level by an absent one. -/
def zeroLevelToNone (r : RtReading) : RtReading :=
  { r with level := if r.level = some 0 then none else r.level }

theorem levelSel_zeroLevelToNone (r : RtReading) :
    levelSel (zeroLevelToNone r) = levelSel r := by
  rcases r with ⟨dt, dis, lv⟩
  cases lv with
  | none => rfl
  | some l =>
      by_cases hl : l = 0
      · subst hl
        simp [zeroLevelToNone, levelSel]
      · simp [zeroLevelToNone, levelSel, hl, Option.some.injEq]

theorem recentLevels_map_zeroLevelToNone (rs : List RtReading) :
    recentLevels (rs.map zeroLevelToNone) = recentLevels rs := by
  rw [recentLevels, recentLevels, ← List.map_take, List.filterMap_map]
  exact List.filterMap_congr fun r _ => levelSel_zeroLevelToNone r

/-- Claim C10: The trend computation selects levels by Python truthiness,
so a reading whose level equals `0.0` is treated exactly as if the level
were absent (replacing every `0.0` level by an absent one changes
nothing), and whenever fewer than two of the 7 most recent readings
carry a non-absent, nonzero level the trend is `stable`. -/
theorem claim_C10_trend_truthiness (rs : List RtReading) :
    trendOf (rs.map zeroLevelToNone) = trendOf rs
    ∧ (((rs.take 7).countP fun r =>
          decide (r.level ≠ none ∧ r.level ≠ some 0)) < 2 →
        trendOf rs = "stable") := by
  constructor
  · rw [trendOf, trendOf, recentLevels_map_zeroLevelToNone, List.length_map]
  · intro hcount
    have hsel : (recentLevels rs).length =
        (rs.take 7).countP fun r => decide (r.level ≠ none ∧ r.level ≠ some 0) := by
      rw [recentLevels]
      induction rs.take 7 with
      | nil => rfl
      | cons r rest ih =>
          rcases r with ⟨dt, dis, lv⟩
          cases lv with
          | none => simpa [levelSel, List.countP_cons] using ih
          | some l =>
              by_cases hl : l = 0
              · subst hl
                simpa [levelSel, List.countP_cons] using ih
              · simpa [levelSel, hl, List.countP_cons] using ih
    rw [trendOf]
    by_cases hr : 2 ≤ rs.length
    · rw [if_pos hr, if_neg (by omega)]
    · rw [if_neg hr]

/-- Witness for C10: a window whose only level sample is the zero level
(excluded by truthiness) is classified `stable`. -/
theorem claim_C10_trend_truthiness_witness :
    trendOf [⟨"2024-01-02T00:00:00Z", some 5, some 0⟩,
             ⟨"2024-01-01T18:00:00Z", some 6, none⟩] = "stable" :=
  (claim_C10_trend_truthiness
      [⟨"2024-01-02T00:00:00Z", some 5, some 0⟩,
       ⟨"2024-01-01T18:00:00Z", some 6, none⟩]).2
    (by norm_num)

/-! ## Yearly partitioned store (`station_data_manager.write_yearly_readings`)

`write_yearly_readings` issues
`readings_ref.set({'year': year, 'daily_readings': daily_readings,
'updated_at': SERVER_TIMESTAMP}, merge=True)`.
The Firestore client's `set` with `merge=True` merges dictionaries
*recursively*: every leaf value of the supplied data is written at its
field path and all other stored fields are preserved, so both the
`daily_readings` map and each per-date aggregate map inside it are merged
field-by-field rather than replaced.  An *empty* dictionary value is
itself a leaf and replaces the stored map at its path.  The model below
instantiates these documented client semantics at the fixed schema of the
year document (maps of per-date aggregates whose leaves are numbers). -/

/-- Recursive merge of one date's stored aggregate with the incoming one:
incoming leaf fields win, stored fields absent from the incoming
aggregate are preserved; an incoming empty map replaces the stored one. -/
def mergeAgg (old new : DailyAgg) : DailyAgg :=
  if new.mean_discharge = none ∧ new.mean_level = none then new
  else
    { mean_discharge :=
        match new.mean_discharge with
        | some q => some q
        | none => old.mean_discharge
      mean_level :=
        match new.mean_level with
        | some q => some q
        | none => old.mean_level }

/-- The post-merge value of one stored date entry: recursively merged
with the incoming aggregate when the incoming map also carries that
date, untouched otherwise. -/
def mergeEntry (new : List (String × DailyAgg)) (k : String)
    (v : DailyAgg) : DailyAgg :=
  match alistLookup k new with
  | some na => mergeAgg v na
  | none => v

/-- Recursive merge of the stored `daily_readings` map with the incoming
one: per-date recursive merge, dates absent from the incoming map are
preserved; an incoming empty map replaces the stored map. -/
def mergeReadings (old new : List (String × DailyAgg)) :
    List (String × DailyAgg) :=
  if new = [] then []
  else
    (old.map fun p => (p.1, mergeEntry new p.1 p.2))
    ++ new.filter fun p => (alistLookup p.1 old).isNone

/-- A year document
`station_data/{provider}_{station_id}/readings/{year}`; `updated_at`
abstracts the server timestamp as a tick. -/
structure YearDoc where
  year : ℤ
  daily_readings : List (String × DailyAgg)
  updated_at : ℕ
deriving DecidableEq, Repr

/-- Model of `station_data_manager.write_yearly_readings`: merge-set the supplied
date→aggregate map into the (possibly absent) year document. -/
def write_yearly_readings (prior : Option YearDoc) (year : ℤ)
    (m : List (String × DailyAgg)) (now : ℕ) : YearDoc :=
  match prior with
  | none => ⟨year, m, now⟩
  | some d => ⟨year, mergeReadings d.daily_readings m, now⟩

theorem alistLookup_append {β : Type} (d : String)
    (l1 l2 : List (String × β)) :
    alistLookup d (l1 ++ l2) =
      match alistLookup d l1 with
      | some v => some v
      | none => alistLookup d l2 := by
  induction l1 with
  | nil => simp [alistLookup]
  | cons p rest ih =>
      by_cases h : p.1 = d
      · simp [alistLookup, h]
      · simpa [alistLookup, h] using ih

theorem alistLookup_map_key {β γ : Type} (d : String)
    (h : String → β → γ) (l : List (String × β)) :
    alistLookup d (l.map fun p => (p.1, h p.1 p.2)) =
      (alistLookup d l).map (h d) := by
  induction l with
  | nil => simp [alistLookup]
  | cons p rest ih =>
      by_cases hp : p.1 = d
      · subst hp
        simp [alistLookup]
      · simpa [alistLookup, hp] using ih

theorem alistLookup_filter_key {β : Type} (d : String)
    (q : String → Bool) (l : List (String × β)) :
    alistLookup d (l.filter fun p => q p.1) =
      if q d then alistLookup d l else none := by
  induction l with
  | nil => simp [alistLookup]
  | cons p rest ih =>
      by_cases hp : p.1 = d
      · subst hp
        by_cases hq : q p.1
        · simp [List.filter_cons, hq, alistLookup]
        · simp only [List.filter_cons, hq, Bool.false_eq_true, if_false, ih]
      · by_cases hq : q p.1
        · simp only [List.filter_cons, hq, if_true, alistLookup, if_neg hp]
          exact ih
        · simp only [List.filter_cons, hq, Bool.false_eq_true, if_false, ih]
          by_cases hqd : q d <;> simp [hqd, alistLookup, hp]

theorem lookup_mergeReadings (old new : List (String × DailyAgg))
    (d : String) :
    alistLookup d (mergeReadings old new) =
      if new = [] then none
      else
        match alistLookup d old, alistLookup d new with
        | some o, some n => some (mergeAgg o n)
        | some o, none => some o
        | none, r => r := by
  by_cases hnew : new = []
  · simp [mergeReadings, hnew, alistLookup]
  · rw [mergeReadings, if_neg hnew, if_neg hnew, alistLookup_append,
      alistLookup_map_key d (mergeEntry new) old,
      alistLookup_filter_key d (fun k => (alistLookup k old).isNone) new]
    cases ho : alistLookup d old with
    | some o => cases hn : alistLookup d new <;> simp [mergeEntry, hn]
    | none => simp [ho]

theorem mergeAgg_self (n : DailyAgg) : mergeAgg n n = n := by
  rcases n with ⟨md, ml⟩
  by_cases h : md = none ∧ ml = none
  · simp [mergeAgg, h]
  · simp only [mergeAgg]
    rw [if_neg h]
    cases md <;> cases ml <;> rfl

theorem mergeAgg_absorb (o n : DailyAgg) :
    mergeAgg (mergeAgg o n) n = mergeAgg o n := by
  rcases n with ⟨md, ml⟩
  by_cases h : md = none ∧ ml = none
  · rcases h with ⟨rfl, rfl⟩
    simp [mergeAgg]
  · simp only [mergeAgg]
    rw [if_neg h, if_neg h]
    cases md <;> cases ml <;> rfl

/-- Claim C2 counterexample: The claim says a date present in the written
map is sent to *that map's* aggregate.  Firestore's recursive merge
instead merges the nested aggregate maps: writing a discharge-only
aggregate over a stored level-only aggregate for the same date yields an
aggregate holding *both* fields, not the written one. -/
theorem claim_C2_counterexample :
    alistLookup "2024-01-01"
        (write_yearly_readings
          (some ⟨2024, [("2024-01-01", ⟨none, some 2⟩)], 0⟩) 2024
          [("2024-01-01", ⟨some 5, none⟩)] 1).daily_readings
      = some ⟨some 5, some 2⟩
    ∧ alistLookup "2024-01-01"
        [(("2024-01-01" : String), DailyAgg.mk (some 5) none)]
      = some ⟨some 5, none⟩
    ∧ DailyAgg.mk (some 5) (some 2) ≠ DailyAgg.mk (some 5) none := by
  refine ⟨?_, by simp [alistLookup], by simp⟩
  simp [write_yearly_readings, mergeReadings, alistLookup, mergeEntry,
    mergeAgg, List.filter]

/-- Claim C2 amended: `write_yearly_readings` merge-sets the supplied
map into the year document: a date present in the written map `m` ends
up holding its previously stored aggregate recursively merged with `m`'s
aggregate for that date (`m`'s present fields win; for a new date, or
when `m`'s aggregate carries both fields, this is exactly `m`'s
aggregate), and a date absent from `m` keeps its previously stored
aggregate (with the degenerate exception of an empty `m`, which clears
the map — the aggregators never produce an empty map or an empty
aggregate).  Consequently repeating the identical call leaves
`daily_readings` unchanged, and writes for disjoint date sets preserve
both dates (instantiated by the two closing conjuncts). -/
theorem claim_C2_merge_write (prior : Option YearDoc) (year : ℤ)
    (m : List (String × DailyAgg)) (now now2 : ℕ) (d : String)
    (X Y : DailyAgg) :
    (alistLookup d (write_yearly_readings prior year m now).daily_readings =
      (match prior with
       | none => alistLookup d m
       | some doc =>
         if m = [] then none
         else
           match alistLookup d doc.daily_readings, alistLookup d m with
           | some o, some n => some (mergeAgg o n)
           | some o, none => some o
           | none, r => r))
    ∧ alistLookup d (write_yearly_readings
        (some (write_yearly_readings prior year m now)) year m
        now2).daily_readings =
      alistLookup d (write_yearly_readings prior year m now).daily_readings
    ∧ alistLookup "2024-01-01"
        (write_yearly_readings
          (some (write_yearly_readings none 2024 [("2024-01-01", Y)] 0))
          2024 [("2024-01-02", X)] 1).daily_readings = some Y
    ∧ alistLookup "2024-01-02"
        (write_yearly_readings
          (some (write_yearly_readings none 2024 [("2024-01-01", Y)] 0))
          2024 [("2024-01-02", X)] 1).daily_readings = some X := by
  refine ⟨?_, ?_, ?_, ?_⟩
  · cases prior with
    | none => rfl
    | some doc => exact lookup_mergeReadings doc.daily_readings m d
  · cases prior with
    | none =>
        simp only [write_yearly_readings, lookup_mergeReadings]
        by_cases hm : m = []
        · simp [hm, alistLookup]
        · rw [if_neg hm]
          cases hd : alistLookup d m with
          | some n => simp [mergeAgg_self]
          | none => simp
    | some doc =>
        simp only [write_yearly_readings, lookup_mergeReadings]
        by_cases hm : m = []
        · simp [hm]
        · rw [if_neg hm, if_neg hm]
          cases hd : alistLookup d m with
          | some n =>
              cases ho : alistLookup d doc.daily_readings with
              | some o => simp [mergeAgg_absorb]
              | none => simp [mergeAgg_self]
          | none =>
              cases ho : alistLookup d doc.daily_readings with
              | some o => simp
              | none => simp
  · simp only [write_yearly_readings, lookup_mergeReadings]
    simp [alistLookup]
  · simp only [write_yearly_readings, lookup_mergeReadings]
    simp [alistLookup]

/-! ## Batched store writes (`station_data_manager.batch_write_station_data`)

The method iterates the queued operations, adds each recognised
operation (`create_metadata`, `update_metadata`, `write_readings`) to
the current `WriteBatch`, increments `batch_count` for *every* queued
operation, commits and resets the batch as soon as `batch_count`
reaches 500 (the Firestore per-batch limit), and commits the remaining
partial batch at the end when `batch_count > 0`.  The model returns the
list of committed batches (each the list of operations it contains). -/

/-- A queued store operation, dispatched on its `type` key; `unknown`
stands for any other `type` string (counted against the batch size but
added to no batch, exactly as in the source's dispatch). -/
inductive Op
  | create_metadata (provider station_id station_name : String)
      (river_runs : List String)
  | update_metadata (provider station_id : String)
  | write_readings (provider station_id : String) (year : ℤ)
      (daily_readings : List (String × DailyAgg))
  | unknown (type : String)
deriving DecidableEq, Repr

/-- Whether the dispatch in `batch_write_station_data` adds the
operation to the write batch. -/
def recognizedOp : Op → Bool
  | .unknown _ => false
  | _ => true

/-- The loop of `batch_write_station_data`: `cur` is the current batch's
contents (newest first), `count` is `batch_count`. -/
def batchGo (ops : List Op) (cur : List Op) (count : ℕ) : List (List Op) :=
  match ops with
  | [] => if 0 < count then [cur.reverse] else []
  | op :: rest =>
      let cur2 := if recognizedOp op then op :: cur else cur
      if 500 ≤ count + 1 then cur2.reverse :: batchGo rest [] 0
      else batchGo rest cur2 (count + 1)

/-- Model of `station_data_manager.batch_write_station_data`, abstracted to the
sequence of committed batches. -/
def batch_write_station_data (ops : List Op) : List (List Op) :=
  batchGo ops [] 0

theorem batchGo_flatten (ops : List Op) :
    ∀ cur count, count < 500 → (count = 0 → cur = []) →
      (batchGo ops cur count).flatten = cur.reverse ++ ops.filter recognizedOp := by
  induction ops with
  | nil =>
      intro cur count hlt hz
      by_cases h : 0 < count
      · simp [batchGo, h]
      · have : count = 0 := by omega
        simp [batchGo, this, hz this]
  | cons op rest ih =>
      intro cur count hlt hz
      rw [batchGo]
      by_cases hfull : 500 ≤ count + 1
      · rw [if_pos hfull]
        rw [List.flatten_cons, ih [] 0 (by omega) (fun _ => rfl)]
        by_cases hr : recognizedOp op <;>
          simp [hr, List.filter_cons, List.append_assoc]
      · rw [if_neg hfull]
        have h2 : count + 1 < 500 := by omega
        by_cases hr : recognizedOp op
        · rw [if_pos hr] at *
          rw [ih (op :: cur) (count + 1) h2 (by omega)]
          simp [List.filter_cons, hr, List.append_assoc]
        · rw [if_neg hr] at *
          rw [ih cur (count + 1) h2 (by omega)]
          simp [List.filter_cons, hr]

theorem batchGo_length (ops : List Op) :
    ∀ cur count, count < 500 →
      (batchGo ops cur count).length = (ops.length + count + 499) / 500 := by
  induction ops with
  | nil =>
      intro cur count hlt
      by_cases h : 0 < count
      · simp only [batchGo, if_pos h, List.length_singleton, List.length_nil]
        omega
      · have hc : count = 0 := by omega
        simp [batchGo, hc]
  | cons op rest ih =>
      intro cur count hlt
      rw [batchGo]
      by_cases hfull : 500 ≤ count + 1
      · rw [if_pos hfull]
        have hc : count = 499 := by omega
        rw [List.length_cons, ih [] 0 (by omega)]
        subst hc
        simp only [List.length_cons]
        omega
      · rw [if_neg hfull]
        by_cases hr : recognizedOp op
        · rw [if_pos hr, ih _ (count + 1) (by omega)]
          simp only [List.length_cons]
          omega
        · rw [if_neg hr, ih _ (count + 1) (by omega)]
          simp only [List.length_cons]
          omega

theorem batchGo_chunk_le (ops : List Op) :
    ∀ cur count, cur.length ≤ count → count < 500 →
      ∀ c ∈ batchGo ops cur count, c.length ≤ 500 := by
  induction ops with
  | nil =>
      intro cur count hle hlt c hc
      by_cases h : 0 < count
      · rw [batchGo, if_pos h] at hc
        rcases List.mem_singleton.mp hc with rfl
        simp only [List.length_reverse]
        omega
      · rw [batchGo, if_neg h] at hc
        simp at hc
  | cons op rest ih =>
      intro cur count hle hlt c hc
      rw [batchGo] at hc
      have hcur2 : (if recognizedOp op then op :: cur else cur).length ≤ count + 1 := by
        by_cases hr : recognizedOp op <;> simp [hr] <;> omega
      by_cases hfull : 500 ≤ count + 1
      · rw [if_pos hfull] at hc
        rcases List.mem_cons.mp hc with rfl | hc2
        · simp only [List.length_reverse]
          omega
        · exact ih [] 0 (by simp) (by omega) c hc2
      · rw [if_neg hfull] at hc
        exact ih _ (count + 1) hcur2 (by omega) c hc

theorem batchGo_full_chunks (ops : List Op)
    (hall : ∀ op ∈ ops, recognizedOp op = true) :
    ∀ cur count, cur.length = count → count < 500 →
      ∀ c ∈ (batchGo ops cur count).dropLast, c.length = 500 := by
  induction ops with
  | nil =>
      intro cur count hlen hlt c hc
      by_cases h : 0 < count
      · rw [batchGo, if_pos h] at hc
        simp at hc
      · rw [batchGo, if_neg h] at hc
        simp at hc
  | cons op rest ih =>
      intro cur count hlen hlt c hc
      have hrop : recognizedOp op = true := hall op (List.mem_cons_self op rest)
      have hrest : ∀ o ∈ rest, recognizedOp o = true :=
        fun o ho => hall o (List.mem_cons_of_mem op ho)
      rw [batchGo, if_pos hrop] at hc
      by_cases hfull : 500 ≤ count + 1
      · rw [if_pos hfull] at hc
        cases hrec : batchGo rest [] 0 with
        | nil => rw [hrec] at hc; simp at hc
        | cons b bs =>
            rw [hrec, List.dropLast_cons₂] at hc
            rcases List.mem_cons.mp hc with rfl | hc2
            · simp only [List.length_reverse, List.length_cons]
              omega
            · have := ih hrest [] 0 rfl (by omega) c
              rw [hrec] at this
              exact this hc2
      · rw [if_neg hfull] at hc
        exact ih hrest (op :: cur) (count + 1) (by simp [hlen]) (by omega) c hc

/-- Claim C8: For any list of queued operations (all of a recognised
type), `batch_write_station_data` commits every supplied operation
exactly once and in order, in `⌈n/500⌉` commits; every committed chunk
holds at most 500 operations, a chunk is committed as soon as it
reaches 500 queued operations (so every chunk but the last holds
exactly 500), and the remaining partial chunk is committed at the
end. -/
theorem claim_C8_batch_chunking (ops : List Op)
    (h : ∀ op ∈ ops, recognizedOp op = true) :
    (batch_write_station_data ops).flatten = ops
    ∧ (batch_write_station_data ops).length = (ops.length + 499) / 500
    ∧ (∀ c ∈ batch_write_station_data ops, c.length ≤ 500)
    ∧ (∀ c ∈ (batch_write_station_data ops).dropLast, c.length = 500) := by
  refine ⟨?_, ?_, ?_, ?_⟩
  · rw [batch_write_station_data, batchGo_flatten ops [] 0 (by omega) (fun _ => rfl)]
    simp [List.filter_eq_self.mpr h]
  · rw [batch_write_station_data, batchGo_length ops [] 0 (by omega)]
  · exact batchGo_chunk_le ops [] 0 (by simp) (by omega)
  · exact batchGo_full_chunks ops h [] 0 rfl (by omega)

/-- Witness for C8: a single `update_metadata` operation is committed
in one chunk containing exactly that operation. -/
theorem claim_C8_batch_chunking_witness :
    (batch_write_station_data [Op.update_metadata "environment_canada" "08GA072"]).flatten =
      [Op.update_metadata "environment_canada" "08GA072"] :=
  (claim_C8_batch_chunking [Op.update_metadata "environment_canada" "08GA072"]
    (by decide)).1

/-! ## Retrying fetches (`_fetch_date_range` in both data services)

Both `daily_data_service._fetch_date_range` and
`realtime_data_service._fetch_date_range` run

    for attempt in range(MAX_RETRIES):          # MAX_RETRIES = 3
        try:
            ... request ...; return parse(...)
        except <transient network error>:
            if attempt < MAX_RETRIES - 1:
                sleep(RETRY_DELAY * (attempt + 1))  # RETRY_DELAY = 2
            else:
                raise
    return …  # empty result; dead code, the final failure raises

The model runs the same loop against an oracle giving each attempt's
outcome; it records the number of HTTP attempts made, the sleeps
performed, and the result (`Except.error` = the exception propagates to
the caller; `Except.ok none` = the dead post-loop empty return). -/

/-- Outcome of a single HTTP attempt. -/
inductive FetchOutcome
  | ok (readings : List RtReading)
  | transientFail

/-- Observable trace of one `_fetch_date_range` call. -/
structure FetchTrace where
  attempts : ℕ
  sleeps : List ℕ
  result : Except Unit (Option (List RtReading))

/-- Constant `MAX_RETRIES` in both data services. -/
def MAX_RETRIES : ℕ := 3

/-- Constant `RETRY_DELAY` (seconds) in both data services. -/
def RETRY_DELAY : ℕ := 2

/-- The retry loop: current attempt index and remaining loop
iterations. -/
def fetchGo (oracle : ℕ → FetchOutcome) : ℕ → ℕ → FetchTrace
  | _, 0 => ⟨0, [], .ok none⟩
  | attempt, remaining + 1 =>
      match oracle attempt with
      | .ok rs => ⟨1, [], .ok (some rs)⟩
      | .transientFail =>
          if remaining = 0 then ⟨1, [], .error ()⟩
          else
            let t := fetchGo oracle (attempt + 1) remaining
            ⟨t.attempts + 1, RETRY_DELAY * (attempt + 1) :: t.sleeps, t.result⟩

/-- Model of `_fetch_date_range` as a trace over the attempt oracle. -/
def fetch_date_range (oracle : ℕ → FetchOutcome) : FetchTrace :=
  fetchGo oracle 0 MAX_RETRIES

theorem fetch_date_range_spec (oracle : ℕ → FetchOutcome) :
    fetch_date_range oracle =
      match oracle 0 with
      | .ok rs => ⟨1, [], .ok (some rs)⟩
      | .transientFail =>
        match oracle 1 with
        | .ok rs => ⟨2, [2], .ok (some rs)⟩
        | .transientFail =>
          match oracle 2 with
          | .ok rs => ⟨3, [2, 4], .ok (some rs)⟩
          | .transientFail => ⟨3, [2, 4], .error ()⟩ := by
  cases h0 : oracle 0 <;> cases h1 : oracle 1 <;> cases h2 : oracle 2 <;>
    simp [fetch_date_range, MAX_RETRIES, RETRY_DELAY, fetchGo, h0, h1, h2]

/-- Claim C9: Every `_fetch_date_range` call (either call shape) makes at
most 3 HTTP attempts; before each retry of a failed non-final attempt it
sleeps `attempt index × 2` seconds (2 s then 4 s); and when all 3
attempts fail with a transient network error, the error is raised to
the caller — the post-loop empty return is never reached. -/
theorem claim_C9_retry_backoff (oracle : ℕ → FetchOutcome) :
    (fetch_date_range oracle).attempts ≤ 3
    ∧ (fetch_date_range oracle).sleeps =
        [2, 4].take ((fetch_date_range oracle).attempts - 1)
    ∧ ((∀ i, i < 3 → oracle i = .transientFail) →
        (fetch_date_range oracle).attempts = 3
        ∧ (fetch_date_range oracle).result = .error ())
    ∧ (fetch_date_range oracle).result ≠ .ok none := by
  rw [fetch_date_range_spec oracle]
  cases h0 : oracle 0 <;> cases h1 : oracle 1 <;> cases h2 : oracle 2 <;>
    refine ⟨by simp, by simp, fun hall => ?_, by simp⟩ <;>
    first
      | exact ⟨rfl, rfl⟩
      | · exfalso
          first
            | exact FetchOutcome.noConfusion ((hall 0 (by omega)).symm.trans h0)
            | exact FetchOutcome.noConfusion ((hall 1 (by omega)).symm.trans h1)
            | exact FetchOutcome.noConfusion ((hall 2 (by omega)).symm.trans h2)

/-- Witness for C9: the all-fail oracle makes 3 attempts and raises. -/
theorem claim_C9_retry_backoff_witness :
    (fetch_date_range fun _ => FetchOutcome.transientFail).attempts = 3
    ∧ (fetch_date_range fun _ => FetchOutcome.transientFail).result = .error () :=
  (claim_C9_retry_backoff fun _ => FetchOutcome.transientFail).2.2.1
    fun _ _ => rfl

/-! ## Upstream response parsing (`_parse_response`)

`realtime_data_service._parse_response` loops over
`json_data.get('features', [])`; for each feature it runs, inside
`try: ... except (KeyError, TypeError, ValueError): continue`,

    props = feature.get('properties', {})
    reading = {'datetime': props.get('DATETIME'), 'discharge': ..., 'level': ...,
               'station_name': ..., 'station_number': ...}
    if reading['discharge'] is not None or reading['level'] is not None:
        readings.append(reading)

A feature that is itself not a dict (e.g. a JSON `null`, string, number
or array in the `features` array), or a dict whose `properties` value is
not a dict, makes the `.get` attribute access raise `AttributeError` —
which is *not* in the caught tuple, so it escapes the loop and fails the
whole parse.  A dict feature (with a dict or absent `properties`) never
raises here: its `.get` calls return `None` defaults and the reading is
kept iff it carries at least one measurement.
`daily_data_service._parse_response` has the same structure (its
per-feature body is `DailyMean.from_environment_canada_daily`, again a
chain of `.get` calls with the same caught tuple). -/

/-- The Python exception classes relevant to `_parse_response`. -/
inductive PyExc
  | keyError
  | typeError
  | valueError
  | attributeError
deriving DecidableEq, Repr

/-- The tuple of exception classes caught by the per-feature
`try/except`. -/
def caughtInParse : List PyExc := [.keyError, .typeError, .valueError]

/-- The reading dict built for one feature by
`realtime_data_service._parse_response`. -/
structure ParsedReading where
  datetime : Option String
  discharge : Option ℚ
  level : Option ℚ
  station_name : Option String
  station_number : Option String
deriving DecidableEq, Repr

/-- One element of the upstream `features` array.  `proper` is a dict
feature whose `properties` is a dict or absent (fields default to
`None`); `nonDict` is a non-dict array element; `badProps` is a dict
feature whose `properties` value is not a dict. -/
inductive Feature
  | proper (datetime : Option String) (discharge : Option ℚ)
      (level : Option ℚ) (station_name station_number : Option String)
  | nonDict
  | badProps
deriving DecidableEq, Repr

/-- The per-feature body: the reading it appends (`some`), `none` when
the feature carries neither measurement and is skipped, or the raised
exception. -/
def parseFeature : Feature → Except PyExc (Option ParsedReading)
  | .proper dt d l sn snum =>
      if d.isSome || l.isSome then .ok (some ⟨dt, d, l, sn, snum⟩)
      else .ok none
  | .nonDict => .error .attributeError
  | .badProps => .error .attributeError

/-- Model of `_parse_response` over the `features` array: readings of kept
features in order; an exception outside the caught tuple aborts the
whole parse. -/
def parse_response : List Feature → Except PyExc (List ParsedReading)
  | [] => .ok []
  | f :: rest =>
      match parseFeature f with
      | .ok (some r) => (parse_response rest).map fun rs => r :: rs
      | .ok none => parse_response rest
      | .error e =>
          if e ∈ caughtInParse then parse_response rest else .error e

/-- A well-formed feature carrying both measurements. -/
def validFeature : Feature :=
  .proper (some "2024-01-01T05:00:00Z") (some 5) (some 1)
    (some "CHEAKAMUS RIVER") (some "08GA072")

/-- The reading parsed from `validFeature`. -/
def validParsed : ParsedReading :=
  ⟨some "2024-01-01T05:00:00Z", some 5, some 1,
   some "CHEAKAMUS RIVER", some "08GA072"⟩

/-- Claim C7: The claim says a malformed feature never causes an exception
to escape the parse nor the loss of any other feature's reading, and
that 9 valid features plus 1 malformed one yield exactly 9 readings.
The code's `except` tuple omits `AttributeError`, which is what a
non-dict feature (or a non-dict `properties` value) raises: with 9 valid
features and one such malformed feature the exception escapes and all 9
readings are lost, while the 9 valid features alone parse to exactly 9
readings. -/
theorem claim_C7_parse_robustness :
    parse_response (List.replicate 9 validFeature ++ [Feature.nonDict]) =
      .error .attributeError
    ∧ parse_response (List.replicate 9 validFeature) =
      .ok (List.replicate 9 validParsed)
    ∧ (PyExc.attributeError ∈ caughtInParse) = False := by
  refine ⟨?_, ?_, by simp [caughtInParse]⟩ <;> rfl

/-! ## Organising readings by year (`daily_data_service.organize_by_year`)

`organize_by_year` iterates the date→aggregate dict, takes
`year = int(date_str[:4])`, and groups entries into a per-year dict
(insertion order, one group per distinct year).  Dates are always
`YYYY-MM-DD` strings here, for which `int(date_str[:4])` is the numeric
value of the first four characters (modelled with `String.toInt?`,
defaulting to 0; `int()` raising on non-numeric input is outside the
shapes reaching this code). -/

/-- Model of `int(date_str[:4])`. -/
def yearOf (date : String) : ℤ := ((date.take 4).toInt?).getD 0

/-- Insert one date entry into the per-year grouping (append to the
year's group, or open a new group at the end). -/
def addReading (acc : List (ℤ × List (String × DailyAgg))) (y : ℤ)
    (entry : String × DailyAgg) : List (ℤ × List (String × DailyAgg)) :=
  match acc with
  | [] => [(y, [entry])]
  | (y', rs) :: rest =>
      if y' = y then (y', rs ++ [entry]) :: rest
      else (y', rs) :: addReading rest y entry

/-- Model of `daily_data_service.organize_by_year`. -/
def organize_by_year (readings : List (String × DailyAgg)) :
    List (ℤ × List (String × DailyAgg)) :=
  readings.foldl (fun acc p => addReading acc (yearOf p.1) p) []

theorem addReading_keys (y : ℤ) (entry : String × DailyAgg) :
    ∀ acc, (addReading acc y entry).map Prod.fst =
      if y ∈ acc.map Prod.fst then acc.map Prod.fst
      else acc.map Prod.fst ++ [y] := by
  intro acc
  induction acc with
  | nil => simp [addReading]
  | cons p rest ih =>
      rcases p with ⟨y', rs⟩
      by_cases h : y' = y
      · subst h
        simp [addReading]
      · rw [addReading, if_neg h]
        simp only [List.map_cons, ih]
        by_cases hm : y ∈ rest.map Prod.fst
        · simp [hm, Ne.symm h]
        · simp [hm, Ne.symm h, h]

theorem foldl_addReading_keys_mem (rs : List (String × DailyAgg)) :
    ∀ acc y,
      (y ∈ ((rs.foldl (fun acc p => addReading acc (yearOf p.1) p)
          acc).map Prod.fst)
        ↔ y ∈ acc.map Prod.fst ∨ y ∈ rs.map fun p => yearOf p.1) := by
  induction rs with
  | nil => simp
  | cons p rest ih =>
      intro acc y
      rw [List.foldl_cons, ih]
      rw [addReading_keys]
      by_cases hm : yearOf p.1 ∈ acc.map Prod.fst
      · rw [if_pos hm]
        simp only [List.map_cons, List.mem_cons]
        constructor
        · rintro (h | h)
          · exact Or.inl h
          · exact Or.inr (Or.inr h)
        · rintro (h | h | h)
          · exact Or.inl h
          · exact Or.inl (h ▸ hm)
          · exact Or.inr h
      · rw [if_neg hm]
        simp only [List.mem_append, List.mem_singleton, List.map_cons,
          List.mem_cons, List.not_mem_nil, or_false]
        exact or_assoc

theorem foldl_addReading_keys_nodup (rs : List (String × DailyAgg)) :
    ∀ acc, (acc.map Prod.fst).Nodup →
      ((rs.foldl (fun acc p => addReading acc (yearOf p.1) p)
        acc).map Prod.fst).Nodup := by
  induction rs with
  | nil => intro acc h; simpa using h
  | cons p rest ih =>
      intro acc h
      rw [List.foldl_cons]
      refine ih _ ?_
      rw [addReading_keys]
      by_cases hm : yearOf p.1 ∈ acc.map Prod.fst
      · rwa [if_pos hm]
      · rw [if_neg hm]
        simp [List.nodup_append, h, hm]

theorem organize_by_year_keys_nodup (rs : List (String × DailyAgg)) :
    ((organize_by_year rs).map Prod.fst).Nodup :=
  foldl_addReading_keys_nodup rs [] (by simp)

theorem mem_organize_by_year_keys (rs : List (String × DailyAgg)) (y : ℤ) :
    y ∈ (organize_by_year rs).map Prod.fst ↔
      y ∈ rs.map fun p => yearOf p.1 := by
  rw [organize_by_year, foldl_addReading_keys_mem rs [] y]
  simp

/-! ## Current-conditions cache and the two Cloud Function updaters

`station_data_manager.write_current_station_data` overwrites the
`station_current/{provider}_{station_id}` document with

    {'station_id', 'provider', 'latest_reading', 'trend',
     'hourly_readings', 'readings_count', 'updated_at'}

— in particular the written document has a `hourly_readings` map and
*no* `hourly_readings_csv` key. -/

/-- The `station_current` cache document.  `hourly_readings` is the
datetime-keyed map of reading dicts; `hourly_readings_csv` is the field
the daily updater reads (absent, i.e. `none`, in documents written by
`write_current_station_data`). -/
structure CurrentDoc where
  station_id : String
  provider : String
  latest_reading : RtReading
  trend : String
  hourly_readings : List (String × RtReading)
  hourly_readings_csv : Option String
  readings_count : ℕ
  updated_at : ℕ
deriving DecidableEq, Repr

/-- Model of `station_data_manager.write_current_station_data`: full overwrite of
the cache document with exactly the keys listed above. -/
def write_current_station_data (provider station_id : String)
    (latest_reading : RtReading) (trend : String)
    (hourly_readings : List (String × RtReading)) (updated_at : ℕ) :
    CurrentDoc :=
  { station_id := station_id
    provider := provider
    latest_reading := latest_reading
    trend := trend
    hourly_readings := hourly_readings
    hourly_readings_csv := none
    readings_count := hourly_readings.length
    updated_at := updated_at }

/-! ### C3: `realtime_updater.process_station`

The function fetches 720 hours of readings and then calls

    status = await service.get_station_status(station_id, hours=24)

but `RealtimeDataService.get_station_status` in
`functions/scripts/environment_canada/realtime_data_service.py` is
declared `async def get_station_status(self, station_id)` — it accepts
no `hours` parameter.  Python raises `TypeError` at argument binding,
the surrounding `except Exception` catches it, and the function returns
`{'station_id': ..., 'status': 'error', ...}` without writing anything.
The model checks the keyword binding explicitly. -/

/-- The parameter names (besides `self`) of
`RealtimeDataService.get_station_status`. -/
def get_station_status_params : List String := ["station_id"]

/-- The keyword arguments of the call
`service.get_station_status(station_id, hours=24)` in
`realtime_updater.process_station`. -/
def process_station_status_kwargs : List String := ["hours"]

/-- Whether the call's keyword arguments bind to the callee's
parameters; when they do not, Python raises `TypeError`. -/
def statusCallBinds : Bool :=
  process_station_status_kwargs.all fun k =>
    get_station_status_params.contains k

/-- Per-station outcome of `realtime_updater.process_station`: the
status in its returned record and the cache write it performed (if
any). -/
structure StationResult where
  station_id : String
  status : String
  written : Option CurrentDoc
deriving Repr

/-- Model of `realtime_updater.process_station`, given the readings its 720-hour
fetch returned.  The success branch (unreachable, since the status call
cannot bind) would store the latest reading, trend and fetched window
via `write_current_station_data`. -/
def process_station (station_id : String) (fetched : List RtReading)
    (now : ℕ) : StationResult :=
  if fetched = [] then ⟨station_id, "no_data", none⟩
  else if statusCallBinds then
    ⟨station_id, "success",
      some (write_current_station_data "environment_canada" station_id
        fetched.headI (trendOf fetched)
        (fetched.map fun r => (r.datetime, r)) now)⟩
  else ⟨station_id, "error", none⟩

/-- Claim C3: The claim says that for a station whose hourly fetch returns
at least one reading, one refresher run overwrites the cache document
and records the outcome as success.  In the code the intervening call
`get_station_status(station_id, hours=24)` passes a keyword argument
the method does not accept, so every such station instead raises
`TypeError`, is recorded as `error`, and nothing is written. -/
theorem claim_C3_realtime_refresher (station_id : String)
    (fetched : List RtReading) (now : ℕ) (h : fetched ≠ []) :
    statusCallBinds = false
    ∧ (process_station station_id fetched now).status = "error"
    ∧ (process_station station_id fetched now).written = none := by
  refine ⟨by decide, ?_, ?_⟩ <;>
    simp [process_station, h, statusCallBinds,
      process_station_status_kwargs, get_station_status_params]

/-- Witness for C3: one fetched reading still yields status `error` and
no cache write. -/
theorem claim_C3_realtime_refresher_witness :
    (process_station "05BB001"
        [⟨"2024-01-01T00:00:00Z", none, some 1⟩] 0).status = "error" :=
  (claim_C3_realtime_refresher "05BB001"
    [⟨"2024-01-01T00:00:00Z", none, some 1⟩] 0 (by simp)).2.1

/-! ### C5: `daily_updater.process_existing_station`

For an existing station the Cloud Function daily averager loads the
`station_current` document and reads
`current_data.get('hourly_readings_csv', '')` — a field that
`write_current_station_data` (the realtime refresher's write path)
never writes; the refresher stores the window under `hourly_readings`.
With the CSV field absent the function returns status `no_readings`
before any computation.  Were a CSV present, it is parsed line by line
(`split('\n')[1:]`, blank lines skipped, `split(',')`, optional float
fields by string truthiness), yesterday's aggregate computed, and, when
non-empty, merge-written via one `write_readings` operation per year
(`no_yesterday_data` and no write otherwise). -/

/-- Python `float()` on the plain decimal strings a readings CSV holds
(optional sign, digits, optional fraction); `none` models the
`ValueError` raise on anything else. -/
def parseDecimal? (s : String) : Option ℚ :=
  let core : String → Option ℚ := fun t =>
    match t.splitOn "." with
    | [w] => (w.toNat?).map fun n => (n : ℚ)
    | [w, f] =>
        match w.toNat?, f.toNat? with
        | some n, some m => some ((n : ℚ) + (m : ℚ) / ((10 : ℚ) ^ f.length))
        | _, _ => none
    | _ => none
  if s.startsWith "-" then (core (s.drop 1)).map Neg.neg else core s

/-- One optional CSV field: Python's `if parts[i]:` truthiness guard
followed by `float(parts[i])`; an unparsable non-empty field raises
`ValueError` (uncaught inside the row loop). -/
def floatField (s : String) : Except Unit (Option ℚ) :=
  if s = "" then .ok none
  else
    match parseDecimal? s with
    | some q => .ok (some q)
    | none => .error ()

/-- The row loop over `readings_csv.split('\n')[1:]`. -/
def parseCsvRows : List String → Except Unit (List RtReading)
  | [] => .ok []
  | line :: rest =>
      if line.trim = "" then parseCsvRows rest
      else
        let parts := line.splitOn ","
        if 3 ≤ parts.length then
          match floatField (parts.getD 1 ""), floatField (parts.getD 2 "") with
          | .ok d, .ok l =>
              (parseCsvRows rest).map fun rs => ⟨parts.getD 0 "", d, l⟩ :: rs
          | _, _ => .error ()
        else parseCsvRows rest

/-- Per-station outcome of `daily_updater.process_existing_station`:
the returned status and the queued write operations. -/
structure ExistOutcome where
  status : String
  writes : List Op
deriving Repr

/-- Model of `daily_updater.process_existing_station`, given the station's
`station_current` document (`none` when that document does not exist)
and the run's yesterday date. -/
def process_existing_station (doc? : Option CurrentDoc)
    (yesterday : String) : ExistOutcome :=
  match doc? with
  | none => ⟨"no_cache", []⟩
  | some doc =>
      let csv := doc.hourly_readings_csv.getD ""
      if csv = "" then ⟨"no_readings", []⟩
      else
        match parseCsvRows ((csv.splitOn "\n").drop 1) with
        | .error _ => ⟨"error", []⟩
        | .ok hourly =>
            if hourly = [] then ⟨"no_readings", []⟩
            else
              if calculate_daily_average_for_yesterday hourly yesterday = []
                then ⟨"no_yesterday_data", []⟩
              else
                ⟨"success",
                  (organize_by_year
                    (calculate_daily_average_for_yesterday hourly
                      yesterday)).map fun p =>
                    Op.write_readings "environment_canada" doc.station_id
                      p.1 p.2⟩

/-- Claim C5: The claim says the daily averager reads back the hourly
window cached by the realtime refresher, aggregates yesterday when
present, and returns `no_yesterday_data` (without writing) only when
the cache holds no yesterday readings.  But the refresher's write path
stores the window under `hourly_readings` while the daily averager
reads `hourly_readings_csv`: for *every* cache document written by
`write_current_station_data` — whatever hourly readings it holds — the
function returns status `no_readings` and performs no write at all. -/
theorem claim_C5_daily_averager_cache (provider station_id : String)
    (latest : RtReading) (trend : String)
    (hourly : List (String × RtReading)) (updated_at : ℕ)
    (yesterday : String) :
    process_existing_station
        (some (write_current_station_data provider station_id latest trend
          hourly updated_at)) yesterday
      = ⟨"no_readings", []⟩ := by
  simp [process_existing_station, write_current_station_data]

/-! ### C4: processing a newly discovered station

Two orchestrators process new stations:

* `scripts/daily_station_updater.process_new_station` queues one
  `create_metadata` operation followed by one `write_readings`
  operation per year group and reports `success`;
* `functions/daily_updater.process_new_station` (the Cloud Function
  daily averager) queues *only* the per-year `write_readings`
  operations — it creates no metadata document — and reports
  `success`. -/

/-- Per-station stats of `daily_station_updater.process_new_station`
(the script orchestrator). -/
structure NewStationResult where
  status : String
  readings_fetched : ℕ
  years_written : ℕ
  operations : List Op
deriving Repr

/-- Model of `daily_station_updater.process_new_station`, given the fetched
historical date→aggregate map. -/
def process_new_station_script (station_id station_name : String)
    (fetched : List (String × DailyAgg)) : NewStationResult :=
  if fetched = [] then ⟨"failed", fetched.length, 0, []⟩
  else
    ⟨"success", fetched.length, (organize_by_year fetched).length,
      Op.create_metadata "environment_canada" station_id station_name []
        :: (organize_by_year fetched).map fun p =>
            Op.write_readings "environment_canada" station_id p.1 p.2⟩

/-- Per-station outcome of `daily_updater.process_new_station` (the
Cloud Function orchestrator). -/
structure FnNewResult where
  status : String
  operations : List Op
deriving Repr

/-- Model of `daily_updater.process_new_station`, given the fetched historical
date→aggregate map. -/
def process_new_station_fn (station_id : String)
    (fetched : List (String × DailyAgg)) : FnNewResult :=
  if fetched = [] then ⟨"no_historical_data", []⟩
  else
    ⟨"success",
      (organize_by_year fetched).map fun p =>
        Op.write_readings "environment_canada" station_id p.1 p.2⟩

/-- Whether an operation creates a station-metadata document. -/
def isCreateMetadata : Op → Bool
  | .create_metadata _ _ _ _ => true
  | _ => false

/-- The year written by a `write_readings` operation. -/
def writtenYear : Op → Option ℤ
  | .write_readings _ _ y _ => some y
  | _ => none

/-- Claim C4 counterexample: The claim says the orchestrator of a
daily-update run writes exactly one station-metadata document for a new
station with fetched data.  The Cloud Function daily updater
(`functions/daily_updater.process_new_station`) queues no
`create_metadata` operation at all while still reporting success. -/
theorem claim_C4_counterexample :
    (process_new_station_fn "08GA072"
        [("2024-01-01", ⟨some 5, none⟩)]).status = "success"
    ∧ ((process_new_station_fn "08GA072"
        [("2024-01-01", ⟨some 5, none⟩)]).operations.countP
          isCreateMetadata) = 0
    ∧ (process_new_station_fn "08GA072"
        [("2024-01-01", ⟨some 5, none⟩)]).operations.length = 1 := by
  refine ⟨rfl, rfl, rfl⟩

/-- Claim C4 amended: For a new station whose historical fetch returns a
non-empty date→aggregate map: the script orchestrator
(`daily_station_updater.process_new_station`) reports success and queues
exactly one `create_metadata` operation plus exactly one `write_readings`
operation per distinct calendar year among the fetched dates (years
listed without duplicates, and a year is written iff it occurs among the
fetched dates); the Cloud Function orchestrator
(`daily_updater.process_new_station`) also reports success and queues
the same per-year `write_readings` operations but no `create_metadata`
operation. -/
theorem claim_C4_new_station (station_id station_name : String)
    (fetched : List (String × DailyAgg)) (h : fetched ≠ []) :
    (process_new_station_script station_id station_name fetched).status
        = "success"
    ∧ ((process_new_station_script station_id station_name
        fetched).operations.countP isCreateMetadata) = 1
    ∧ ((process_new_station_script station_id station_name
        fetched).operations.filterMap writtenYear).Nodup
    ∧ (∀ y, y ∈ (process_new_station_script station_id station_name
          fetched).operations.filterMap writtenYear
        ↔ y ∈ fetched.map fun p => yearOf p.1)
    ∧ (process_new_station_fn station_id fetched).status = "success"
    ∧ ((process_new_station_fn station_id fetched).operations.countP
        isCreateMetadata) = 0
    ∧ ((process_new_station_fn station_id fetched).operations.filterMap
        writtenYear)
        = (process_new_station_script station_id station_name
            fetched).operations.filterMap writtenYear := by
  have hyears : ((organize_by_year fetched).map fun p =>
      Op.write_readings "environment_canada" station_id p.1 p.2).filterMap
        writtenYear = (organize_by_year fetched).map Prod.fst := by
    rw [List.filterMap_map]
    simpa [Function.comp, writtenYear] using
      (List.filterMap_eq_map (fun p : ℤ × List (String × DailyAgg) => p.1)).symm ▸ rfl
  refine ⟨?_, ?_, ?_, ?_, ?_, ?_, ?_⟩
  · simp [process_new_station_script, h]
  · simp [process_new_station_script, h, List.countP_cons, isCreateMetadata,
      List.countP_map, Function.comp]
  · simp only [process_new_station_script, if_neg h, List.filterMap_cons]
    rw [show writtenYear (Op.create_metadata "environment_canada" station_id
      station_name []) = none from rfl]
    rw [hyears]
    exact organize_by_year_keys_nodup fetched
  · intro y
    simp only [process_new_station_script, if_neg h, List.filterMap_cons]
    rw [show writtenYear (Op.create_metadata "environment_canada" station_id
      station_name []) = none from rfl]
    rw [hyears]
    exact mem_organize_by_year_keys fetched y
  · simp [process_new_station_fn, h]
  · simp only [process_new_station_fn, if_neg h]
    rw [List.countP_eq_zero]
    intro op hop
    rcases List.mem_map.mp hop with ⟨p, _, rfl⟩
    simp [isCreateMetadata]
  · simp only [process_new_station_fn, process_new_station_script, if_neg h,
      List.filterMap_cons]
    rw [show writtenYear (Op.create_metadata "environment_canada" station_id
      station_name []) = none from rfl]

/-- Witness for C4 (amended): a single fetched day yields one metadata
operation and one year written by the script orchestrator. -/
theorem claim_C4_new_station_witness :
    ((process_new_station_script "08GA072" "CHEAKAMUS RIVER"
        [("2024-01-01", ⟨some 5, none⟩)]).operations.countP
      isCreateMetadata) = 1 :=
  (claim_C4_new_station "08GA072" "CHEAKAMUS RIVER"
    [("2024-01-01", ⟨some 5, none⟩)] (by simp)).2.1

end Brownpaw
